import Mathlib

/-
Verification of the family-membership and fan-out-notification core of the
CapybaraFirebase cloud functions.  The definitions below are a shallow
embedding of the callable functions in the source (the complete revision
with named return codes): Firestore state is explicit, external
collaborators (auth email resolution, push delivery) are oracle functions,
and promise rejection is an Except error.
-/

namespace CapybaraFirebase

/-- User identifier assigned by Firebase Auth. -/
abbrev Uid := String

/-- Email address, the secondary lookup key of a user. -/
abbrev Email := String

/-- Device push token stored in a user document. -/
abbrev Token := String

/-- Family document identifier; the embedded store assigns fresh ids from a counter. -/
abbrev FamilyId := Nat

/-- Family document in the families collection: a creator field plus a members
array that the functions manipulate only through arrayUnion and arrayRemove. -/
structure FamilyDoc where
  id : FamilyId
  creator : Uid
  members : List Uid
deriving Repr, DecidableEq

/-- User document in the users collection; the deviceToken field may be absent. -/
structure UserDoc where
  deviceToken : Option Token
deriving Repr, DecidableEq

/-- Firestore state visible to the functions: the families collection, the
counter producing fresh family document ids, and the users collection keyed by uid. -/
structure Store where
  families : List FamilyDoc
  nextId : FamilyId
  users : List (Uid × UserDoc)
deriving Repr, DecidableEq

/-- Authenticated caller context provided by the callable-functions runtime. -/
structure Auth where
  uid : Uid
  email : Email
deriving Repr, DecidableEq

/-- External collaborators of the functions: resolveEmail embeds
admin.auth getUserByEmail, pushOk tells whether a push to the device of the
given user succeeds, and msgId is the message id returned on a successful send. -/
structure Env where
  resolveEmail : Email → Option Uid
  pushOk : Uid → Bool
  msgId : Uid → String

/-- Error codes thrown as HttpsError by the functions. -/
inductive HttpsErr where
  | failedPrecondition
  | unknown
  | internal
deriving Repr, DecidableEq, Fintype

/-- Query of the families collection for documents whose creator equals uid. -/
def queryByCreator (st : Store) (uid : Uid) : List FamilyDoc :=
  st.families.filter (fun d => d.creator == uid)

/-- Query of the families collection for documents whose members array contains uid. -/
def queryByMember (st : Store) (uid : Uid) : List FamilyDoc :=
  st.families.filter (fun d => d.members.contains uid)

/-- Read of the user document with the given uid, none when the document is absent. -/
def lookupUser (st : Store) (uid : Uid) : Option UserDoc :=
  (st.users.find? (fun p => p.1 == uid)).map (fun p => p.2)

/-- Semantics of FieldValue.arrayUnion on the members field: append if absent. -/
def arrayUnion (l : List Uid) (u : Uid) : List Uid :=
  if l.contains u then l else l ++ [u]

/-- Semantics of FieldValue.arrayRemove on the members field. -/
def arrayRemove (l : List Uid) (u : Uid) : List Uid :=
  l.filter (fun x => x != u)

/-- Update of the members field of the family document addressed by fid. -/
def updateMembers (st : Store) (fid : FamilyId) (f : List Uid → List Uid) : Store :=
  { st with
      families := st.families.map
        (fun d => if d.id == fid then { d with members := f d.members } else d) }

/-- Add of a fresh family document with the given creator followed by the
arrayUnion update that inserts the creator into the members array. -/
def addFamilyDoc (st : Store) (uid : Uid) : Store × FamilyId :=
  ({ st with
       families := st.families ++ [{ id := st.nextId, creator := uid, members := [uid] }],
       nextId := st.nextId + 1 },
   st.nextId)

/-- Outcome of admin.messaging send for a message composed with the given
token: a missing token makes the send fail, otherwise the push service decides. -/
def pushAttempt (env : Env) (token : Option Token) (recipient : Uid) : Bool :=
  match token with
  | none => false
  | some _ => env.pushOk recipient

/-- Result payload of createFamily: returnCode created or exist together with
the family uid, or the many-families returnCode. -/
inductive CreateResult where
  | created (familyUid : FamilyId)
  | exist (familyUid : FamilyId)
  | manyFamilies
deriving Repr, DecidableEq

/-- Body of createFamily: the query for families created by the caller followed
by the branch on an empty snapshot (create), a single document (return its id)
or several documents (the many-families returnCode). -/
def createFamilyCore (st : Store) (uid : Uid) : Store × CreateResult :=
  match queryByCreator st uid with
  | [] =>
      let res := addFamilyDoc st uid
      (res.1, .created res.2)
  | [d] => (st, .exist d.id)
  | _ => (st, .manyFamilies)

/-- Callable createFamily: the authentication gate in front of the body. -/
def createFamily (ctx : Option Auth) (st : Store) : Store × Except HttpsErr CreateResult :=
  match ctx with
  | none => (st, .error .failedPrecondition)
  | some auth =>
      let res := createFamilyCore st auth.uid
      (res.1, .ok res.2)

/-- Result payload of sendInvite: the sent returnCode with the message id. -/
inductive InviteResult where
  | sent (messageId : String)
deriving Repr, DecidableEq

/-- Callable sendInvite: resolve the invitee email, read the invitee user
document, compose the invite message and send it.  The whole chain sits in a
single catch, so an unresolvable email, a missing user document (a TypeError
on reading deviceToken) or a failed send all reject as HttpsError unknown. -/
def sendInvite (ctx : Option Auth) (inviteeEmail : Email) (env : Env) (st : Store) :
    Store × Except HttpsErr InviteResult :=
  match ctx with
  | none => (st, .error .failedPrecondition)
  | some _ =>
      match env.resolveEmail inviteeEmail with
      | none => (st, .error .unknown)
      | some inviteeUid =>
          match lookupUser st inviteeUid with
          | none => (st, .error .unknown)
          | some udoc =>
              if pushAttempt env udoc.deviceToken inviteeUid
              then (st, .ok (.sent (env.msgId inviteeUid)))
              else (st, .error .unknown)

/-- Result payload of joinFamily: the no-family and many-families returnCodes,
the ok returnCode with a message id, or the not-sent returnCode produced when
the confirmation send fails. -/
inductive JoinResult where
  | noFamily
  | manyFamilies
  | okSent (messageId : String)
  | notSent
deriving Repr, DecidableEq

/-- Callable joinFamily: resolve the inviting email, query the families created
by the inviter, and on the single-document branch commit the arrayUnion of the
caller uid before reading the inviter user document and sending the acceptance
message.  Only the send has its own catch (returnCode not-sent); a missing
inviter user document raises a TypeError after the membership write already
committed, so that rejection surfaces as HttpsError unknown with the write kept. -/
def joinFamily (ctx : Option Auth) (invitingEmail : Email) (env : Env) (st : Store) :
    Store × Except HttpsErr JoinResult :=
  match ctx with
  | none => (st, .error .failedPrecondition)
  | some auth =>
      match env.resolveEmail invitingEmail with
      | none => (st, .error .unknown)
      | some invitingUid =>
          match queryByCreator st invitingUid with
          | [] => (st, .ok .noFamily)
          | [d] =>
              let st2 := updateMembers st d.id (fun l => arrayUnion l auth.uid)
              match lookupUser st2 invitingUid with
              | none => (st2, .error .unknown)
              | some udoc =>
                  if pushAttempt env udoc.deviceToken invitingUid
                  then (st2, .ok (.okSent (env.msgId invitingUid)))
                  else (st2, .ok .notSent)
          | _ => (st, .ok .manyFamilies)

/-- Per-recipient returnCode resolved by one atomic send promise. -/
inductive Code where
  | sent
  | notSent
deriving Repr, DecidableEq

/-- Result payload of sendLocation. -/
inductive SendResult where
  | noFamily
  | manyFamilies
  | allSent
  | someSent
  | noneSent
deriving Repr, DecidableEq

/-- Reduction of the collected per-recipient return codes (the second then of
sendLocation): both markers present gives some-sent, only sent gives all-sent,
only not-sent gives none-sent, and anything else throws HttpsError internal. -/
def aggregate (codes : List Code) : Except HttpsErr SendResult :=
  if codes.contains .sent && codes.contains .notSent then .ok .someSent
  else if codes.contains .sent && !(codes.contains .notSent) then .ok .allSent
  else if !(codes.contains .sent) && codes.contains .notSent then .ok .noneSent
  else .error .internal

/-- Per-recipient chained promise of sendLocation: read the member user
document, then send the location message.  A missing member document raises a
TypeError that rejects the whole chain (no catch at this level), while a send
failure is caught and resolves to the not-sent returnCode. -/
def recipientPipeline (env : Env) (st : Store) (memberUid : Uid) : Except HttpsErr Code :=
  match lookupUser st memberUid with
  | none => .error .unknown
  | some udoc =>
      if pushAttempt env udoc.deviceToken memberUid then .ok .sent else .ok .notSent

/-- Loop of sendLocation over the members array, skipping the caller. -/
def sendRecipients (memberUids : List Uid) (callerUid : Uid) : List Uid :=
  memberUids.filter (fun m => m != callerUid)

/-- Per-recipient returnCode when the member user document is present; used to
state that each recipient contributes exactly its own outcome. -/
def recipientOutcome (env : Env) (st : Store) (m : Uid) : Code :=
  match lookupUser st m with
  | some udoc => if pushAttempt env udoc.deviceToken m then .sent else .notSent
  | none => .notSent

/-- Value produced by the first then of sendLocation: either a plain returnCode
object (the no-family or many-families case) or the array resolved by the
composite promise over all recipients. -/
inductive Stage1 where
  | plain (r : SendResult)
  | codes (cs : List Code)
deriving Repr, DecidableEq

/-- First then of sendLocation: query the families containing the caller and
either return a plain returnCode object or run every recipient pipeline and
collect the array of return codes (the composite promise rejects as soon as
any atomic promise rejects). -/
def sendLocationStage1 (auth : Auth) (env : Env) (st : Store) : Except HttpsErr Stage1 :=
  match queryByMember st auth.uid with
  | [] => .ok (.plain .noFamily)
  | [d] => Except.map Stage1.codes
      ((sendRecipients d.members auth.uid).mapM (recipientPipeline env st))
  | _ => .ok (.plain .manyFamilies)

/-- Second then of sendLocation: calling includes on a plain returnCode object
is a TypeError, hence a rejection; an array goes through the aggregate reduction. -/
def sendLocationStage2 : Stage1 → Except HttpsErr SendResult
  | .plain _ => .error .unknown
  | .codes cs => aggregate cs

/-- Final catch of sendLocation: every rejection of the chain, including the
internal HttpsError thrown by the reduction, is rethrown as HttpsError unknown. -/
def rethrowUnknown (e : Except HttpsErr SendResult) : Except HttpsErr SendResult :=
  match e with
  | .ok r => .ok r
  | .error _ => .error .unknown

/-- Callable sendLocation: the authentication gate, the two then stages and the
final catch.  The function never writes the store. -/
def sendLocation (ctx : Option Auth) (env : Env) (st : Store) :
    Store × Except HttpsErr SendResult :=
  match ctx with
  | none => (st, .error .failedPrecondition)
  | some auth =>
      (st, rethrowUnknown
        (match sendLocationStage1 auth env st with
         | .ok s1 => sendLocationStage2 s1
         | .error e => .error e))

/-- Member uids for which the loop of sendLocation builds a send promise. -/
def sendLocationTargets (st : Store) (callerUid : Uid) : List Uid :=
  match queryByMember st callerUid with
  | [d] => sendRecipients d.members callerUid
  | _ => []

/-- Result payload of updateDeviceToken. -/
inductive TokenResult where
  | ok
deriving Repr, DecidableEq

/-- Set of the whole user document, replacing any existing document content. -/
def setUserDoc (st : Store) (uid : Uid) (doc : UserDoc) : Store :=
  { st with users := (uid, doc) :: st.users.filter (fun p => p.1 != uid) }

/-- Callable updateDeviceToken: replace the caller user document with one
holding only the new device token. -/
def updateDeviceToken (ctx : Option Auth) (deviceToken : Token) (st : Store) :
    Store × Except HttpsErr TokenResult :=
  match ctx with
  | none => (st, .error .failedPrecondition)
  | some auth =>
      (setUserDoc st auth.uid { deviceToken := some deviceToken }, .ok .ok)

/-- Result payload of createFamilyMember and deleteFamilyMember. -/
inductive CrudResult where
  | noFamily
  | manyFamilies
  | created
  | deleted
deriving Repr, DecidableEq

/-- Callable createFamilyMember: query the families created by the caller and,
on the single-document branch, resolve the member email and arrayUnion the
member uid into the members array of that document. -/
def createFamilyMember (ctx : Option Auth) (familyMemberEmail : Email) (env : Env)
    (st : Store) : Store × Except HttpsErr CrudResult :=
  match ctx with
  | none => (st, .error .failedPrecondition)
  | some auth =>
      match queryByCreator st auth.uid with
      | [] => (st, .ok .noFamily)
      | [d] =>
          match env.resolveEmail familyMemberEmail with
          | none => (st, .error .unknown)
          | some memberUid =>
              (updateMembers st d.id (fun l => arrayUnion l memberUid), .ok .created)
      | _ => (st, .ok .manyFamilies)

/-- Callable deleteFamilyMember: as createFamilyMember but with arrayRemove. -/
def deleteFamilyMember (ctx : Option Auth) (familyMemberEmail : Email) (env : Env)
    (st : Store) : Store × Except HttpsErr CrudResult :=
  match ctx with
  | none => (st, .error .failedPrecondition)
  | some auth =>
      match queryByCreator st auth.uid with
      | [] => (st, .ok .noFamily)
      | [d] =>
          match env.resolveEmail familyMemberEmail with
          | none => (st, .error .unknown)
          | some memberUid =>
              (updateMembers st d.id (fun l => arrayRemove l memberUid), .ok .deleted)
      | _ => (st, .ok .manyFamilies)

/-- Local state of one in-flight createFamily call: the query snapshot once the
read has happened, and the result once the write branch has run. -/
structure CreateCall where
  snapshot : Option (List FamilyDoc)
  result : Option CreateResult
deriving Repr, DecidableEq

/-- Fresh in-flight createFamily call. -/
def CreateCall.start : CreateCall := { snapshot := none, result := none }

/-- One scheduler step granted to a createFamily call: first the query against
the current store, then the branch acting on the recorded snapshot.  The branch
is the check-then-act write of the source; the query and the write are separate
steps because the source uses no transaction around them. -/
def createStep (uid : Uid) (st : Store) (c : CreateCall) : Store × CreateCall :=
  match c.snapshot, c.result with
  | none, _ => (st, { c with snapshot := some (queryByCreator st uid) })
  | some snap, none =>
      match snap with
      | [] =>
          let res := addFamilyDoc st uid
          (res.1, { c with result := some (.created res.2) })
      | [d] => (st, { c with result := some (.exist d.id) })
      | _ => (st, { c with result := some .manyFamilies })
  | some _, some _ => (st, c)

/-- Interleaved execution of two createFamily calls by the same caller; a false
schedule entry steps the first call, a true entry steps the second. -/
def runTwo (uid : Uid) : Store → CreateCall → CreateCall → List Bool →
    Store × CreateCall × CreateCall
  | st, c1, c2, [] => (st, c1, c2)
  | st, c1, c2, false :: rest =>
      let res := createStep uid st c1
      runTwo uid res.1 res.2 c2 rest
  | st, c1, c2, true :: rest =>
      let res := createStep uid st c2
      runTwo uid res.1 c1 res.2 rest

/-- Sequential (serialized) repetition of createFamily by the same caller: each
call runs to completion before the next starts. -/
def iterCreateFamily (uid : Uid) : Store → Nat → Store × List CreateResult
  | st, 0 => (st, [])
  | st, n + 1 =>
      let res := createFamilyCore st uid
      let rest := iterCreateFamily uid res.1 n
      (rest.1, res.2 :: rest.2)

/-- Members array of the family document addressed by fid, empty when absent. -/
def familyMembers (st : Store) (fid : FamilyId) : List Uid :=
  match st.families.find? (fun d => d.id == fid) with
  | some d => d.members
  | none => []

/-- Caller u1 used by the concrete scenarios. -/
def authU1 : Auth := { uid := "u1", email := "u1@x" }

/-- Caller u2 used by the concrete scenarios. -/
def authU2 : Auth := { uid := "u2", email := "u2@x" }

/-- Caller A used by the concrete fan-out scenarios. -/
def authA : Auth := { uid := "A", email := "a@x" }

/-- Family document owned by u1 with u1 as sole member. -/
def famU1 : FamilyDoc := { id := 0, creator := "u1", members := ["u1"] }

/-- Store with no documents at all. -/
def stNone : Store := { families := [], nextId := 0, users := [] }

/-- Store holding exactly the family owned by u1. -/
def stOne : Store := { families := [famU1], nextId := 1, users := [] }

/-- Store holding two families both created by u1, the state the single-owner
invariant forbids. -/
def stTwoOwned : Store :=
  { families := [{ id := 0, creator := "u1", members := ["u1"] },
                 { id := 1, creator := "u1", members := ["u1"] }],
    nextId := 2, users := [] }

/-- Store for the join scenario: the family owned by u1 plus the u1 user document. -/
def stJoin : Store :=
  { families := [famU1], nextId := 1,
    users := [("u1", { deviceToken := some "tok" })] }

/-- Environment for the join scenario: the inviting email resolves to u1 and
every push fails. -/
def envJoin : Env :=
  { resolveEmail := fun e => if e == "u1@x" then some "u1" else none,
    pushOk := fun _ => false,
    msgId := fun _ => "m" }

/-- Environment whose pushes always succeed and that resolves no email. -/
def envTrue : Env :=
  { resolveEmail := fun _ => none, pushOk := fun _ => true, msgId := fun _ => "m" }

/-- Environment whose pushes succeed only towards C. -/
def envOnlyC : Env :=
  { resolveEmail := fun _ => none, pushOk := fun u => u == "C", msgId := fun _ => "m" }

/-- Store for the fan-out scenarios: one family A, B, C created by A. -/
def stABC : Store :=
  { families := [{ id := 0, creator := "A", members := ["A", "B", "C"] }], nextId := 1,
    users := [] }

/-- Store for the broken-pipeline scenario: family A, B, C where only C has a
user document. -/
def stNoDocB : Store :=
  { families := [{ id := 0, creator := "A", members := ["A", "B", "C"] }], nextId := 1,
    users := [("C", { deviceToken := some "t" })] }

/-- Store where both B and C have user documents with tokens. -/
def stDocsBC : Store :=
  { families := [{ id := 0, creator := "A", members := ["A", "B", "C"] }], nextId := 1,
    users := [("B", { deviceToken := some "tb" }), ("C", { deviceToken := some "tc" })] }

/-- Store for the frame scenario: families owned by u1 and by u2, and the u2
user document. -/
def stTwoCreators : Store :=
  { families := [{ id := 0, creator := "u1", members := ["u1"] },
                 { id := 1, creator := "u2", members := ["u2"] }],
    nextId := 2,
    users := [("u2", { deviceToken := some "t2" })] }

instance instDecEqExcept {ε α : Type} [DecidableEq ε] [DecidableEq α] :
    DecidableEq (Except ε α) := fun x y =>
  match x, y with
  | .error e1, .error e2 =>
      if h : e1 = e2 then isTrue (by rw [h])
      else isFalse (by intro hc; injection hc; exact h (by assumption))
  | .error _, .ok _ => isFalse (by intro hc; cases hc)
  | .ok _, .error _ => isFalse (by intro hc; cases hc)
  | .ok a1, .ok a2 =>
      if h : a1 = a2 then isTrue (by rw [h])
      else isFalse (by intro hc; injection hc; exact h (by assumption))

lemma mem_arrayUnion_self (l : List Uid) (u : Uid) : u ∈ arrayUnion l u := by
  unfold arrayUnion
  by_cases h : l.contains u = true
  · rw [if_pos h]
    exact List.elem_iff.mp h
  · rw [if_neg h]
    exact List.mem_append_right l (List.mem_singleton_self u)

lemma find?_map_update (l : List FamilyDoc) (fid : FamilyId) (f : List Uid → List Uid)
    (u : Uid) (hf : ∀ ml, u ∈ f ml) (hex : ∃ d ∈ l, d.id = fid) :
    ∃ d2, (l.map (fun d => if d.id == fid then { d with members := f d.members } else d)).find?
        (fun d => d.id == fid) = some d2 ∧ u ∈ d2.members := by
  induction l with
  | nil =>
      obtain ⟨d, hd, _⟩ := hex
      cases hd
  | cons a l ih =>
      by_cases ha : a.id = fid
      · refine ⟨{ a with members := f a.members }, ?_, hf a.members⟩
        simp [List.find?_cons_of_pos, ha]
      · obtain ⟨d2, hfind, hmem⟩ := ih (by
          obtain ⟨d, hd, hdid⟩ := hex
          rcases List.mem_cons.mp hd with rfl | hdl
          · exact absurd hdid ha
          · exact ⟨d, hdl, hdid⟩)
        refine ⟨d2, ?_, hmem⟩
        simpa [List.find?_cons_of_neg, ha] using hfind

lemma mem_familyMembers_updateMembers (st : Store) (fid : FamilyId)
    (f : List Uid → List Uid) (u : Uid) (hf : ∀ ml, u ∈ f ml)
    (hex : ∃ d ∈ st.families, d.id = fid) :
    u ∈ familyMembers (updateMembers st fid f) fid := by
  obtain ⟨d2, hfind, hmem⟩ := find?_map_update st.families fid f u hf hex
  simp only [familyMembers, updateMembers]
  rw [hfind]
  exact hmem

lemma mapM_recipientPipeline (env : Env) (st : Store) (l : List Uid)
    (h : ∀ m ∈ l, (lookupUser st m).isSome = true) :
    l.mapM (recipientPipeline env st) = Except.ok (l.map (recipientOutcome env st)) := by
  induction l with
  | nil => rfl
  | cons a l ih =>
      obtain ⟨udoc, hu⟩ := Option.isSome_iff_exists.mp (h a (List.mem_cons_self a l))
      have hrest := ih (fun m hm => h m (List.mem_cons_of_mem a hm))
      rw [List.mapM_cons, hrest]
      cases hp : pushAttempt env udoc.deviceToken a <;>
        simp [recipientPipeline, recipientOutcome, hu, hp, Except.map] <;> rfl

lemma filter_map_eq_of_fix {α : Type} (l : List α) (g : α → α) (p : α → Bool)
    (h1 : ∀ x ∈ l, p x = true → g x = x) (h2 : ∀ x ∈ l, p (g x) = p x) :
    (l.map g).filter p = l.filter p := by
  induction l with
  | nil => rfl
  | cons a l ih =>
      have ihl := ih (fun x hx => h1 x (List.mem_cons_of_mem a hx))
        (fun x hx => h2 x (List.mem_cons_of_mem a hx))
      cases hpa : p a with
      | false =>
          have hga : p (g a) = false := (h2 a (List.mem_cons_self a l)).trans hpa
          simp [List.filter_cons, hpa, hga, ihl]
      | true =>
          have hga : g a = a := h1 a (List.mem_cons_self a l) hpa
          simp [List.filter_cons, hpa, hga, ihl]

lemma updateMembers_filter_creator_ne (st : Store) (uidc : Uid) (d : FamilyDoc)
    (f : List Uid → List Uid) (hnd : (st.families.map (fun x => x.id)).Nodup)
    (hd : d ∈ st.families) (hcre : d.creator = uidc) :
    (updateMembers st d.id f).families.filter (fun x => x.creator != uidc)
      = st.families.filter (fun x => x.creator != uidc) := by
  unfold updateMembers
  apply filter_map_eq_of_fix
  · intro x hx hpx
    have hne : x.creator ≠ uidc := by simpa using hpx
    have hxid : x.id ≠ d.id := by
      intro he
      have hxd : x = d := List.inj_on_of_nodup_map hnd hx hd he
      rw [hxd] at hne
      exact hne hcre
    simp [hxid]
  · intro x hx
    by_cases he : x.id = d.id
    · simp [he]
    · simp [he]

lemma queryByCreator_addFamilyDoc (st : Store) (u : Uid)
    (h : queryByCreator st u = []) :
    queryByCreator (addFamilyDoc st u).1 u
      = [{ id := st.nextId, creator := u, members := [u] }] := by
  unfold queryByCreator at h
  simp [queryByCreator, addFamilyDoc, List.filter_append, h]

lemma createFamilyCore_exist (st : Store) (u : Uid) (d : FamilyDoc)
    (h : queryByCreator st u = [d]) : createFamilyCore st u = (st, .exist d.id) := by
  simp [createFamilyCore, h]

lemma iterCreateFamily_stable (u : Uid) (st : Store) (d : FamilyDoc)
    (h : queryByCreator st u = [d]) (n : Nat) :
    iterCreateFamily u st n = (st, List.replicate n (.exist d.id)) := by
  induction n with
  | zero => rfl
  | succ n ih =>
      have step : iterCreateFamily u st (n + 1) =
          ((iterCreateFamily u (createFamilyCore st u).1 n).1,
            (createFamilyCore st u).2 :: (iterCreateFamily u (createFamilyCore st u).1 n).2) := rfl
      rw [step, createFamilyCore_exist st u d h]
      simp [ih, List.replicate_succ]

/-- C1 counterexample: the claim that concurrent createFamily calls with the
same owner leave exactly one family and make all but one caller observe the
already-exists result is false for the source, whose query and write are not
atomic.  In the interleaving where both calls run their query before either
writes, the final store holds two families created by u1 and both callers
observe the created result. -/
theorem c1_counterexample_interleaved_duplicate :
    (queryByCreator (runTwo "u1" stNone .start .start [false, true, false, true]).1 "u1").length = 2 ∧
    (runTwo "u1" stNone .start .start [false, true, false, true]).2.1.result
      = some (CreateResult.created 0) ∧
    (runTwo "u1" stNone .start .start [false, true, false, true]).2.2.result
      = some (CreateResult.created 1) := by
  decide

/-- C1 amended: for every sequence of serialized (non-interleaved) createFamily
calls by the same owner u starting from a store where u owns no family, exactly
one family with creator u exists afterward, the first caller observes the
created result, and every later caller observes the already-exists result. -/
theorem c1_sequential_single_owner (st : Store) (u : Uid) (n : Nat)
    (h : queryByCreator st u = []) :
    (queryByCreator (iterCreateFamily u st (n + 1)).1 u).length = 1 ∧
    (iterCreateFamily u st (n + 1)).2.head? = some (CreateResult.created st.nextId) ∧
    (∀ r ∈ (iterCreateFamily u st (n + 1)).2.tail, r = CreateResult.exist st.nextId) := by
  have hstep : iterCreateFamily u st (n + 1) =
      ((iterCreateFamily u (createFamilyCore st u).1 n).1,
        (createFamilyCore st u).2 :: (iterCreateFamily u (createFamilyCore st u).1 n).2) := rfl
  have hcore : createFamilyCore st u = ((addFamilyDoc st u).1, .created st.nextId) := by
    simp [createFamilyCore, h, addFamilyDoc]
  have hq1 := queryByCreator_addFamilyDoc st u h
  have hiter := iterCreateFamily_stable u (addFamilyDoc st u).1 _ hq1 n
  rw [hstep, hcore]
  refine ⟨?_, ?_, ?_⟩
  · simp [hiter, hq1]
  · simp [hiter]
  · intro r hr
    simp only [hiter] at hr
    exact List.eq_of_mem_replicate hr

/-- C1 witness for the amended theorem: three serialized calls by u1 on the
empty store leave one family and return created then exist, exist. -/
theorem c1_sequential_single_owner_witness :
    queryByCreator stNone "u1" = [] ∧
    ((queryByCreator (iterCreateFamily "u1" stNone 3).1 "u1").length = 1 ∧
     (iterCreateFamily "u1" stNone 3).2.head? = some (CreateResult.created 0) ∧
     (∀ r ∈ (iterCreateFamily "u1" stNone 3).2.tail, r = CreateResult.exist 0)) :=
  ⟨by decide, c1_sequential_single_owner stNone "u1" 2 (by decide)⟩

/-- C4: a createFamily call finding no family owned by the caller appends a
fresh family whose members array is exactly the caller and returns the created
result with the new id; a call finding exactly one such family returns the
already-exists result with that id and leaves the store unchanged. -/
theorem c4_createFamily_zero_or_one_match (auth : Auth) (st : Store) :
    (queryByCreator st auth.uid = [] →
      createFamily (some auth) st =
        ({ st with
             families := st.families
               ++ [{ id := st.nextId, creator := auth.uid, members := [auth.uid] }],
             nextId := st.nextId + 1 },
         Except.ok (CreateResult.created st.nextId))) ∧
    (∀ d, queryByCreator st auth.uid = [d] →
      createFamily (some auth) st = (st, Except.ok (CreateResult.exist d.id))) := by
  constructor
  · intro h
    simp [createFamily, createFamilyCore, h, addFamilyDoc]
  · intro d h
    simp [createFamily, createFamilyCore, h]

/-- C4 witness: on the empty store u1 gets the created result and the family
u1 with members u1; on the store already holding that family u1 gets the
already-exists result with its id and the store is unchanged. -/
theorem c4_createFamily_zero_or_one_match_witness :
    (queryByCreator stNone "u1" = [] ∧
      createFamily (some authU1) stNone =
        ({ stNone with
             families := stNone.families
               ++ [{ id := stNone.nextId, creator := authU1.uid, members := [authU1.uid] }],
             nextId := stNone.nextId + 1 },
         Except.ok (CreateResult.created stNone.nextId))) ∧
    (queryByCreator stOne "u1" = [famU1] ∧
      createFamily (some authU1) stOne = (stOne, Except.ok (CreateResult.exist famU1.id))) :=
  ⟨⟨by decide, (c4_createFamily_zero_or_one_match authU1 stNone).1 (by decide)⟩,
   ⟨by decide, (c4_createFamily_zero_or_one_match authU1 stOne).2 famU1 (by decide)⟩⟩

/-- C5 counterexample: the claim that more than one owned family makes
createFamily fail with an internal error is false for the source: on a store
with two families created by u1 the call returns the ordinary typed
many-families result and no error at all. -/
theorem c5_counterexample_ordinary_result :
    createFamily (some authU1) stTwoOwned = (stTwoOwned, Except.ok CreateResult.manyFamilies) ∧
    (∀ e : HttpsErr, (createFamily (some authU1) stTwoOwned).2 ≠ Except.error e) := by
  decide

/-- C5 amended: a createFamily call finding more than one family with the
caller as creator reports the condition as the ordinary typed many-families
result, with the store unchanged; it is not surfaced as an internal error. -/
theorem c5_many_families_typed_result (auth : Auth) (st : Store)
    (h : 1 < (queryByCreator st auth.uid).length) :
    createFamily (some auth) st = (st, Except.ok CreateResult.manyFamilies) := by
  rcases hq : queryByCreator st auth.uid with _ | ⟨a, _ | ⟨b, rest⟩⟩
  · rw [hq] at h
    simp at h
  · rw [hq] at h
    simp at h
  · simp [createFamily, createFamilyCore, hq]

/-- C5 witness for the amended theorem: the two-family store yields the typed
many-families result. -/
theorem c5_many_families_typed_result_witness :
    1 < (queryByCreator stTwoOwned "u1").length ∧
    createFamily (some authU1) stTwoOwned = (stTwoOwned, Except.ok CreateResult.manyFamilies) :=
  ⟨by decide, c5_many_families_typed_result authU1 stTwoOwned (by decide)⟩

/-- C3: for a non-empty list of per-recipient return codes, the reduction of
sendLocation yields all-sent when every code is sent, none-sent when every code
is not-sent, and some-sent when both markers occur. -/
theorem c3_aggregate_reduction (l : List Code) (hne : l ≠ []) :
    ((∀ c ∈ l, c = Code.sent) → aggregate l = Except.ok SendResult.allSent) ∧
    ((∀ c ∈ l, c = Code.notSent) → aggregate l = Except.ok SendResult.noneSent) ∧
    (Code.sent ∈ l → Code.notSent ∈ l → aggregate l = Except.ok SendResult.someSent) := by
  obtain ⟨c0, hc0⟩ := List.exists_mem_of_ne_nil l hne
  refine ⟨?_, ?_, ?_⟩
  · intro hall
    have hs : Code.sent ∈ l := hall c0 hc0 ▸ hc0
    have hns : Code.notSent ∉ l := fun hmem => by simpa using hall _ hmem
    simp [aggregate, hs, hns]
  · intro hall
    have hs : Code.notSent ∈ l := hall c0 hc0 ▸ hc0
    have hns : Code.sent ∉ l := fun hmem => by simpa using hall _ hmem
    simp [aggregate, hs, hns]
  · intro hs hns
    simp [aggregate, hs, hns]

/-- C3 witness: the three two-element outcome lists of the spec reduce to
all-sent, none-sent and some-sent respectively. -/
theorem c3_aggregate_reduction_witness :
    aggregate [Code.sent, Code.sent] = Except.ok SendResult.allSent ∧
    aggregate [Code.notSent, Code.notSent] = Except.ok SendResult.noneSent ∧
    aggregate [Code.sent, Code.notSent] = Except.ok SendResult.someSent :=
  ⟨(c3_aggregate_reduction [Code.sent, Code.sent] (by decide)).1 (by decide),
   (c3_aggregate_reduction [Code.notSent, Code.notSent] (by decide)).2.1 (by decide),
   (c3_aggregate_reduction [Code.sent, Code.notSent] (by decide)).2.2 (by decide) (by decide)⟩

/-- C7: contrary to the claim that a sole-member family yields the all-sent
result or a distinguished no-recipients result, the source collects an empty
code array, the reduction recognizes neither marker and throws the internal
wrong-return-codes error, and the final catch rethrows it as HttpsError
unknown: the sole-member broadcast is an error, not a result. -/
theorem c7_sole_member_errors :
    sendLocationStage1 authU1 envTrue stOne = Except.ok (Stage1.codes []) ∧
    aggregate [] = Except.error HttpsErr.internal ∧
    sendLocation (some authU1) envTrue stOne = (stOne, Except.error HttpsErr.unknown) := by
  decide

/-- C9: every exported operation invoked without an authenticated caller
context returns the failed-precondition error and leaves the store unchanged;
the outcome is the same for every store and every environment, so no store
read, store write or push send influences it. -/
theorem c9_unauthenticated_rejected (inviteeEmail invitingEmail familyMemberEmail : Email)
    (tok : Token) (env : Env) (st : Store) :
    sendInvite none inviteeEmail env st = (st, Except.error HttpsErr.failedPrecondition) ∧
    joinFamily none invitingEmail env st = (st, Except.error HttpsErr.failedPrecondition) ∧
    sendLocation none env st = (st, Except.error HttpsErr.failedPrecondition) ∧
    updateDeviceToken none tok st = (st, Except.error HttpsErr.failedPrecondition) ∧
    createFamily none st = (st, Except.error HttpsErr.failedPrecondition) ∧
    createFamilyMember none familyMemberEmail env st
      = (st, Except.error HttpsErr.failedPrecondition) ∧
    deleteFamilyMember none familyMemberEmail env st
      = (st, Except.error HttpsErr.failedPrecondition) :=
  ⟨rfl, rfl, rfl, rfl, rfl, rfl, rfl⟩

/-- C2: when the inviting email resolves, the query finds exactly one family
owned by the inviter, the inviter user document exists, and the confirmation
push fails, joinFamily still commits the arrayUnion of the caller into the
members array and returns the degraded not-sent result instead of an overall
failure: the caller is a member of the family in the returned store. -/
theorem c2_join_push_failure_keeps_membership (auth : Auth) (invitingEmail : Email)
    (env : Env) (st : Store) (invitingUid : Uid) (d : FamilyDoc) (udoc : UserDoc)
    (hres : env.resolveEmail invitingEmail = some invitingUid)
    (hq : queryByCreator st invitingUid = [d])
    (hud : lookupUser st invitingUid = some udoc)
    (hfail : pushAttempt env udoc.deviceToken invitingUid = false) :
    joinFamily (some auth) invitingEmail env st =
      (updateMembers st d.id (fun l => arrayUnion l auth.uid), Except.ok JoinResult.notSent) ∧
    auth.uid ∈ familyMembers
      (joinFamily (some auth) invitingEmail env st).1 d.id := by
  have hul : lookupUser (updateMembers st d.id (fun l => arrayUnion l auth.uid)) invitingUid
      = some udoc := hud
  have heq : joinFamily (some auth) invitingEmail env st =
      (updateMembers st d.id (fun l => arrayUnion l auth.uid), Except.ok JoinResult.notSent) := by
    simp [joinFamily, hres, hq, hul, hfail]
  refine ⟨heq, ?_⟩
  rw [heq]
  have hd : d ∈ st.families := by
    have hmem : d ∈ queryByCreator st invitingUid := by
      rw [hq]
      exact List.mem_singleton_self d
    exact (List.mem_filter.mp hmem).1
  exact mem_familyMembers_updateMembers st d.id (fun l => arrayUnion l auth.uid) auth.uid
    (fun ml => mem_arrayUnion_self ml auth.uid) ⟨d, hd, rfl⟩

/-- C2 witness: u2 accepts the invite of u1 whose pushes all fail; u2 ends in
the members array of family 0 and the call returns the not-sent result. -/
theorem c2_join_push_failure_keeps_membership_witness :
    (envJoin.resolveEmail "u1@x" = some "u1" ∧
     queryByCreator stJoin "u1" = [famU1] ∧
     lookupUser stJoin "u1" = some { deviceToken := some "tok" } ∧
     pushAttempt envJoin (some "tok") "u1" = false) ∧
    (joinFamily (some authU2) "u1@x" envJoin stJoin =
      (updateMembers stJoin famU1.id (fun l => arrayUnion l authU2.uid),
        Except.ok JoinResult.notSent) ∧
     authU2.uid ∈ familyMembers (joinFamily (some authU2) "u1@x" envJoin stJoin).1 famU1.id) :=
  ⟨⟨by decide, by decide, by decide, by decide⟩,
   c2_join_push_failure_keeps_membership authU2 "u1@x" envJoin stJoin "u1" famU1
     { deviceToken := some "tok" } (by decide) (by decide) (by decide) (by decide)⟩

/-- C6 counterexample: the claim that a failure anywhere in one recipient
pipeline never fails the whole broadcast is false for the source: only the push
send has a per-recipient catch.  With members A, B, C, caller A, a missing user
document for B and a healthy pipeline for C, the pipeline of C alone resolves
sent, yet the broadcast as a whole rejects with HttpsError unknown. -/
theorem c6_counterexample_lookup_failure_aborts :
    recipientPipeline envTrue stNoDocB "B" = Except.error HttpsErr.unknown ∧
    recipientPipeline envTrue stNoDocB "C" = Except.ok Code.sent ∧
    sendLocation (some authA) envTrue stNoDocB = (stNoDocB, Except.error HttpsErr.unknown) := by
  decide

/-- C6 amended: when every recipient has a user document, each recipient
pipeline resolves independently to its own sent or not-sent outcome (a push
failure for one recipient only turns that entry into not-sent), and the
broadcast completes into the aggregate of those outcomes; but a recipient whose
user document is missing rejects the whole broadcast. -/
theorem c6_push_failures_isolated (auth : Auth) (env : Env) (st : Store) (d : FamilyDoc)
    (hq : queryByMember st auth.uid = [d])
    (hdocs : ∀ m ∈ sendRecipients d.members auth.uid, (lookupUser st m).isSome = true) :
    sendLocationStage1 auth env st =
      Except.ok (Stage1.codes
        ((sendRecipients d.members auth.uid).map (recipientOutcome env st))) ∧
    sendLocation (some auth) env st =
      (st, rethrowUnknown
        (aggregate ((sendRecipients d.members auth.uid).map (recipientOutcome env st)))) := by
  have h1 : sendLocationStage1 auth env st =
      Except.ok (Stage1.codes
        ((sendRecipients d.members auth.uid).map (recipientOutcome env st))) := by
    simp only [sendLocationStage1, hq]
    rw [mapM_recipientPipeline env st _ hdocs]
    rfl
  refine ⟨h1, ?_⟩
  simp [sendLocation, h1, sendLocationStage2]

/-- C6 witness for the amended theorem: members A, B, C with caller A, both B
and C documented, pushes succeeding only towards C: the collected outcomes are
not-sent for B and sent for C and the broadcast returns some-sent. -/
theorem c6_push_failures_isolated_witness :
    (queryByMember stDocsBC "A" = [{ id := 0, creator := "A", members := ["A", "B", "C"] }] ∧
     (∀ m ∈ sendRecipients ["A", "B", "C"] "A", (lookupUser stDocsBC m).isSome = true)) ∧
    (sendLocationStage1 authA envOnlyC stDocsBC =
      Except.ok (Stage1.codes
        ((sendRecipients ["A", "B", "C"] "A").map (recipientOutcome envOnlyC stDocsBC))) ∧
     sendLocation (some authA) envOnlyC stDocsBC =
      (stDocsBC, rethrowUnknown
        (aggregate ((sendRecipients ["A", "B", "C"] "A").map
          (recipientOutcome envOnlyC stDocsBC))))) :=
  ⟨⟨by decide, by decide⟩,
   c6_push_failures_isolated authA envOnlyC stDocsBC
     { id := 0, creator := "A", members := ["A", "B", "C"] } (by decide) (by decide)⟩

/-- C8: when the query finds exactly one family containing the caller and its
members array has no duplicates, sendLocation builds exactly one send promise
for every member other than the caller, none for the caller, and no promise
for anyone outside the members array. -/
theorem c8_fanout_exact_targets (st : Store) (callerUid : Uid) (d : FamilyDoc)
    (hq : queryByMember st callerUid = [d]) (hnd : d.members.Nodup) :
    (∀ m ∈ d.members, m ≠ callerUid → (sendLocationTargets st callerUid).count m = 1) ∧
    (sendLocationTargets st callerUid).count callerUid = 0 ∧
    (∀ m ∈ sendLocationTargets st callerUid, m ∈ d.members ∧ m ≠ callerUid) := by
  have ht : sendLocationTargets st callerUid
      = d.members.filter (fun m => m != callerUid) := by
    simp [sendLocationTargets, hq, sendRecipients]
  refine ⟨?_, ?_, ?_⟩
  · intro m hm hne
    rw [ht, List.count_filter (by simpa using hne)]
    exact List.count_eq_one_of_mem hnd hm
  · rw [ht, List.count_eq_zero]
    intro hmem
    have := (List.mem_filter.mp hmem).2
    simp at this
  · intro m hm
    rw [ht] at hm
    obtain ⟨h1, h2⟩ := List.mem_filter.mp hm
    exact ⟨h1, by simpa using h2⟩

/-- C8 witness: the A, B, C family with caller A dispatches exactly once to B
and to C and never to A. -/
theorem c8_fanout_exact_targets_witness :
    (queryByMember stABC "A" = [{ id := 0, creator := "A", members := ["A", "B", "C"] }] ∧
     (["A", "B", "C"] : List Uid).Nodup) ∧
    ((∀ m ∈ (["A", "B", "C"] : List Uid), m ≠ "A" →
        (sendLocationTargets stABC "A").count m = 1) ∧
     (sendLocationTargets stABC "A").count "A" = 0 ∧
     (∀ m ∈ sendLocationTargets stABC "A", m ∈ (["A", "B", "C"] : List Uid) ∧ m ≠ "A")) :=
  ⟨⟨by decide, by decide⟩,
   c8_fanout_exact_targets stABC "A" { id := 0, creator := "A", members := ["A", "B", "C"] }
     (by decide) (by decide)⟩

/-- C10: whatever createFamilyMember or deleteFamilyMember does, the sublist of
family documents whose creator differs from the caller uid is unchanged: the
only document either operation can modify is the one family created by the
caller (document ids are assumed unique, as the store guarantees). -/
theorem c10_frame_other_creators (auth : Auth) (familyMemberEmail : Email) (env : Env)
    (st : Store) (hnd : (st.families.map (fun x => x.id)).Nodup) :
    ((createFamilyMember (some auth) familyMemberEmail env st).1.families.filter
        (fun x => x.creator != auth.uid)
      = st.families.filter (fun x => x.creator != auth.uid)) ∧
    ((deleteFamilyMember (some auth) familyMemberEmail env st).1.families.filter
        (fun x => x.creator != auth.uid)
      = st.families.filter (fun x => x.creator != auth.uid)) := by
  rcases hq : queryByCreator st auth.uid with _ | ⟨d, _ | ⟨d2, rest⟩⟩
  · constructor <;> simp [createFamilyMember, deleteFamilyMember, hq]
  · have hdmem : d ∈ queryByCreator st auth.uid := by
      rw [hq]
      exact List.mem_singleton_self d
    have hd : d ∈ st.families := (List.mem_filter.mp hdmem).1
    have hcre : d.creator = auth.uid := by
      have := (List.mem_filter.mp hdmem).2
      simpa using this
    constructor
    · cases hre : env.resolveEmail familyMemberEmail with
      | none => simp [createFamilyMember, hq, hre]
      | some memberUid =>
          simp only [createFamilyMember, hq, hre]
          exact updateMembers_filter_creator_ne st auth.uid d _ hnd hd hcre
    · cases hre : env.resolveEmail familyMemberEmail with
      | none => simp [deleteFamilyMember, hq, hre]
      | some memberUid =>
          simp only [deleteFamilyMember, hq, hre]
          exact updateMembers_filter_creator_ne st auth.uid d _ hnd hd hcre
  · constructor <;> simp [createFamilyMember, deleteFamilyMember, hq]

/-- C10 witness: with families owned by u1 and u2 and caller u1, adding a
member through createFamilyMember and removing one through deleteFamilyMember
leave the u2 family untouched. -/
theorem c10_frame_other_creators_witness :
    (stTwoCreators.families.map (fun x => x.id)).Nodup ∧
    (((createFamilyMember (some authU1) "u2@x" envJoin stTwoCreators).1.families.filter
        (fun x => x.creator != authU1.uid)
      = stTwoCreators.families.filter (fun x => x.creator != authU1.uid)) ∧
     ((deleteFamilyMember (some authU1) "u2@x" envJoin stTwoCreators).1.families.filter
        (fun x => x.creator != authU1.uid)
      = stTwoCreators.families.filter (fun x => x.creator != authU1.uid))) :=
  ⟨by decide, c10_frame_other_creators authU1 "u2@x" envJoin stTwoCreators (by decide)⟩

end CapybaraFirebase
